import Mathlib

/-!
# Verification of the PricePointPME data pipeline

Shallow embedding of the repository's data-pipeline core
(`data_filterPM.py`, `data_fetch.py`, `startt.py`) and proofs about the
claims of its specification.

Conventions of the embedding:
* Python `float` values are modelled as `ℚ` (the code only parses decimal
  text and does field arithmetic on the results; no claim depends on binary
  rounding).
* Python `float(str)` is modelled by `parseFloat` below: optional surrounding
  whitespace, optional sign, decimal digits with optional fractional part and
  optional exponent.  (CPython additionally accepts `inf`, `nan` and
  underscore digit separators; no claim depends on those forms.)
* JSON/dict records are modelled by the `Stock` structure; an absent key is
  an `Option` field holding `none`.
* External effects (the TradingView analytics lookup, the scraped browser
  page, per-symbol wall-clock timings) are passed in as oracle functions, so
  the embedded functions are pure and quantify over every possible behaviour
  of the outside world.
-/

/-! ## Python string and number primitives -/

/-- The whitespace characters removed by Python's `str.strip()`. -/
def pySpace (c : Char) : Bool :=
  c = ' ' || c = '\t' || c = '\n' || c = '\r' || c = '\x0b' || c = '\x0c'

/-- Model of Python `str.strip()`. -/
def pyStrip (s : String) : String :=
  String.mk (((s.toList.dropWhile pySpace).reverse.dropWhile pySpace).reverse)

/-- Model of Python `s.replace(",", "")` (the only `str.replace` call in the
filtering code): drop every comma. -/
def stripCommas (s : String) : String :=
  String.mk (s.toList.filter (fun c => c ≠ ','))

/-- Model of Python `s.replace(a, b)` for one-character patterns (used by
`get_symbol_variants` for `symbol.replace('-', '.')`). -/
def pyReplaceChar (s : String) (a b : Char) : String :=
  String.mk (s.toList.map (fun c => if c = a then b else c))

/-- Model of Python `str.upper()`; the code only compares the result against
the ASCII string `"N/A"`, for which per-character ASCII upcasing is exact. -/
def pyUpper (s : String) : String :=
  String.mk (s.toList.map Char.toUpper)

/-- Value of a string of decimal digits. -/
def digitsVal (cs : List Char) : ℕ :=
  cs.foldl (fun a c => a * 10 + (c.toNat - 48)) 0

/-- Model of Python `float(s)` on strings: optional whitespace, optional
sign, decimal digits with an optional fractional part and an optional
exponent.  Returns `none` where CPython raises `ValueError`.  The value
`sign * intPart.fracPart * 10 ^ exponent` is assembled as one exact
fraction `mkRat`. -/
def parseFloat (s : String) : Option ℚ :=
  let cs := (pyStrip s).toList
  let signRest : ℤ × List Char :=
    match cs with
    | '+' :: rest => (1, rest)
    | '-' :: rest => (-1, rest)
    | _ => (1, cs)
  let intPart := signRest.2.takeWhile Char.isDigit
  let afterInt := signRest.2.dropWhile Char.isDigit
  let fracRest : List Char × List Char :=
    match afterInt with
    | '.' :: rest => (rest.takeWhile Char.isDigit, rest.dropWhile Char.isDigit)
    | _ => ([], afterInt)
  if intPart.isEmpty && fracRest.1.isEmpty then none
  else
    let m : ℤ := (digitsVal intPart * 10 ^ fracRest.1.length + digitsVal fracRest.1 : ℕ)
    let mkVal : ℤ → Option ℚ := fun expo =>
      some (mkRat (signRest.1 * m * 10 ^ expo.toNat)
        (10 ^ fracRest.1.length * 10 ^ (-expo).toNat))
    match fracRest.2 with
    | [] => mkVal 0
    | e :: rest =>
      if e = 'e' || e = 'E' then
        let esignRest : ℤ × List Char :=
          match rest with
          | '+' :: r => (1, r)
          | '-' :: r => (-1, r)
          | _ => (1, rest)
        let eDigits := esignRest.2.takeWhile Char.isDigit
        let eTail := esignRest.2.dropWhile Char.isDigit
        if eDigits.isEmpty || !eTail.isEmpty then none
        else mkVal (esignRest.1 * (digitsVal eDigits : ℤ))
      else none

/-- A Python value stored in a record field that may be either a number or a
string (`premarket_change_percent` is written as a `float` by the normalizer
and as raw text by the scraper/merger). -/
inductive PyVal where
  | num (q : ℚ)
  | str (s : String)
deriving DecidableEq, Repr

/-- Model of Python `float(v)` on a field value: numbers pass through,
strings are parsed. -/
def pyFloat : PyVal → Option ℚ
  | .num q => some q
  | .str s => parseFloat s

/-! ## Python comparison used by `sorted`

Python compares strings lexicographically by code point.  Comparing a number
with a string raises `TypeError`; in every run of the code that returns, the
sort keys are of a single kind, so the mixed case below is totalized by an
arbitrary fixed choice (numbers before strings) that no theorem relies on. -/

/-- Lexicographic strict order on character lists (Python string `<`). -/
def lexLt : List Char → List Char → Bool
  | [], [] => false
  | [], _ :: _ => true
  | _ :: _, [] => false
  | a :: as, b :: bs => a < b || (a = b && lexLt as bs)

/-- Strict comparison of field values as Python's `sorted` would perform it
on the sort keys (see the note above on the mixed-kind case). -/
def pyValLt : PyVal → PyVal → Bool
  | .num a, .num b => a < b
  | .str a, .str b => lexLt a.toList b.toList
  | .num _, .str _ => true
  | .str _, .num _ => false

/-- Non-strict comparison derived from `pyValLt`. -/
def pyValLE (a b : PyVal) : Bool := !(pyValLt b a)

/-! ## `data_filterPM.py` — data model

A JSON record of the pipeline, as consumed by `filter_premarket_data` and
`filter_opportunities`.  An `Option` field holding `none` models an absent
dictionary key.  `hasError` models the presence of an `"error"` key (its
value is never inspected by the code).  `premarket_change_percent` may hold
either a number (written by the normalizer) or raw text (written by the
scraper/merger), hence `PyVal`.  `rsi` and `sma` come from the indicator
fetch, which produces numbers or `None`. -/

structure Stock where
  symbol : Option String := none
  hasError : Bool := false
  price : Option String := none
  premarket_price : Option String := none
  premarket_change : Option String := none
  premarket_change_percent : Option PyVal := none
  rsi : Option ℚ := none
  sma : Option ℚ := none
  position : Option String := none
  dynamic_scrape_total_seconds : Option String := none
  dynamic_scrape_avg_seconds : Option String := none
deriving DecidableEq, Repr

/-- The reserved sentinel marker `"__DYNAMIC_SCRAPE_STATS__"`. -/
def marker : String := "__DYNAMIC_SCRAPE_STATS__"

/-! ## `data_filterPM.filter_premarket_data` (lines 22-45)

The per-record body of the loop.  Returning `none` models `continue`
without an append (the record is dropped); returning `some r` models
`filtered.append(r)`.  The file I/O wrapping the loop is outside the
embedding. -/

/-- One iteration of the `filter_premarket_data` loop over `data`. -/
def premarketStep (stock : Stock) : Option Stock :=
  if stock.symbol = some marker then
    some stock
  else if stock.hasError then
    none
  else
    let price_str := stripCommas (stock.price.getD "N/A")
    let change_str := stripCommas (stock.premarket_change.getD "N/A")
    if pyUpper price_str = "N/A" ∨ pyUpper change_str = "N/A" then
      some { stock with premarket_change_percent := some (.str "N/A") }
    else
      match parseFloat price_str, parseFloat change_str with
      | some price, some change =>
        if price ≠ 0 then
          some { stock with premarket_change_percent := some (.num (change / price * 100)) }
        else
          some { stock with premarket_change_percent := some (.str "N/A") }
      | _, _ => none

/-- The filtering pass of `filter_premarket_data`: the `filtered` list built
by the loop (the function's second return value). -/
def filter_premarket_data (data : List Stock) : List Stock :=
  data.filterMap premarketStep

/-! ## `data_filterPM.filter_opportunities` (lines 57-88) -/

/-- The threshold configuration dictionary: only the three keys the ranker
reads, `none` modelling an absent key (`config.get` falls back to the
defaults 70 / 30 / 2.0). -/
structure Config where
  RSI_LONG_MAX : Option ℚ := none
  RSI_SHORT_MIN : Option ℚ := none
  MIN_PREMARKET_CHANGE_PERCENT : Option ℚ := none
deriving DecidableEq, Repr

/-- One iteration of the classification loop of `filter_opportunities`:
`acc` is the pair (long_candidates, short_candidates).  A `pyFloat` failure
on `premarket_change_percent` models the `except: continue` (the comparisons
of `rsi` never raise, `rsi` being numeric whenever present). -/
def rankStep (rsi_long_max rsi_short_min min_pm_change : ℚ)
    (acc : List Stock × List Stock) (stock : Stock) : List Stock × List Stock :=
  if stock.symbol = some marker then acc
  else if stock.hasError then acc
  else
    match stock.rsi, stock.premarket_change_percent with
    | some rsi, some pmchg_pct =>
      if pmchg_pct ≠ .str "N/A" then
        match pyFloat pmchg_pct with
        | some pm =>
          (if rsi < rsi_short_min ∧ pm ≥ min_pm_change then acc.1 ++ [stock] else acc.1,
           if rsi > rsi_long_max ∧ pm ≤ -min_pm_change then acc.2 ++ [stock] else acc.2)
        | none => acc
      else acc
    | _, _ => acc

/-- Sort key used by both `sorted` calls:
`x["premarket_change_percent"] if x["premarket_change_percent"] != "N/A" else 0`.
Candidate records always carry the key (a lookup on a record without it
would raise `KeyError`; the `none` branch is totalized and unreachable). -/
def sortKey (x : Stock) : PyVal :=
  match x.premarket_change_percent with
  | some v => if v ≠ .str "N/A" then v else .num 0
  | none => .num 0

/-- Descending key order for `sorted(..., reverse=True)` (stable). -/
def descR (a b : Stock) : Prop := pyValLE (sortKey b) (sortKey a) = true

/-- Ascending key order for `sorted(...)` (stable). -/
def ascR (a b : Stock) : Prop := pyValLE (sortKey a) (sortKey b) = true

instance : DecidableRel descR := fun _ _ => inferInstanceAs (Decidable (_ = true))

instance : DecidableRel ascR := fun _ _ => inferInstanceAs (Decidable (_ = true))

/-- `filter_opportunities(filtered_data, config)`: classify each record and
sort the long candidates descending / the short candidates ascending by the
`sortKey`.  CPython's `sorted` is a stable sort; `List.insertionSort` with
the same (total, transitive) key order computes the identical list, so it is
used as the model of `sorted`. -/
def filter_opportunities (filtered_data : List Stock) (config : Config) :
    List Stock × List Stock :=
  let rsi_long_max := config.RSI_LONG_MAX.getD 70
  let rsi_short_min := config.RSI_SHORT_MIN.getD 30
  let min_pm_change := config.MIN_PREMARKET_CHANGE_PERCENT.getD 2
  let acc := filtered_data.foldl (rankStep rsi_long_max rsi_short_min min_pm_change) ([], [])
  (acc.1.insertionSort descR, acc.2.insertionSort ascR)

/-- The long-candidate condition, as a predicate: exactly when the loop body
appends `stock` to `long_candidates`. -/
def longCond (rsi_short_min min_pm_change : ℚ) (stock : Stock) : Bool :=
  !(stock.symbol = some marker : Bool) && !stock.hasError &&
    match stock.rsi, stock.premarket_change_percent with
    | some rsi, some pmchg_pct =>
      (pmchg_pct ≠ .str "N/A" : Bool) &&
        match pyFloat pmchg_pct with
        | some pm => (rsi < rsi_short_min ∧ pm ≥ min_pm_change : Bool)
        | none => false
    | _, _ => false

/-- The short-candidate condition, dually. -/
def shortCond (rsi_long_max min_pm_change : ℚ) (stock : Stock) : Bool :=
  !(stock.symbol = some marker : Bool) && !stock.hasError &&
    match stock.rsi, stock.premarket_change_percent with
    | some rsi, some pmchg_pct =>
      (pmchg_pct ≠ .str "N/A" : Bool) &&
        match pyFloat pmchg_pct with
        | some pm => (rsi > rsi_long_max ∧ pm ≤ -min_pm_change : Bool)
        | none => false
    | _, _ => false

/-! ## `data_fetch.py` — symbol variants and static (indicator) fetch -/

/-- `get_symbol_variants(symbol)` (lines 45-53): the original symbol, plus a
dot-substituted alternative when the symbol contains a hyphen. -/
def get_symbol_variants (symbol : String) : List String :=
  if symbol.toList.contains '-' then [symbol, pyReplaceChar symbol '-' '.'] else [symbol]

/-- The outcome of one `TA_Handler(...).get_analysis()` call, as an oracle
value: `ok` carries `indicators.get("RSI")` and `indicators.get("SMA20")`
(each possibly `None`); `err` models a raised exception.  The code treats
"Exchange or symbol not found" and every other exception the same way for
control flow (continue to the next candidate), differing only in logging. -/
inductive FetchResult where
  | ok (rsi sma : Option ℚ)
  | err (msg : String)

/-- The (variant, exchange) attempts for one symbol, in the iteration order
of the two nested loops of `fetch_static_data` (lines 77-99): each variant
first on NASDAQ, then on NYSE. -/
def attemptsFor (symbol : String) : List (String × String) :=
  (get_symbol_variants symbol).flatMap (fun v => [(v, "NASDAQ"), (v, "NYSE")])

/-- The inner double loop of `fetch_static_data` for one symbol: starting
from `rsi, sma = None, None`, each non-raising attempt overwrites both
values; the loop stops (`found = True` + the two `break`s) at the first
attempt where both are present. -/
def fetchOne (oracle : String → String → FetchResult) :
    List (String × String) → Option ℚ × Option ℚ → Option ℚ × Option ℚ
  | [], st => st
  | (v, e) :: rest, st =>
    match oracle v e with
    | .ok rsi sma =>
      if rsi.isSome ∧ sma.isSome then (rsi, sma) else fetchOne oracle rest (rsi, sma)
    | .err _ => fetchOne oracle rest st

/-- `fetch_static_data(stock_list)` (lines 59-103), with the analytics
lookup supplied as an oracle; yields the `static_results` mapping as an
association list in input order (progress telemetry and rate-limit pacing
have no effect on the result and are omitted). -/
def fetch_static_data (stock_list : List String)
    (oracle : String → String → FetchResult) : List (String × (Option ℚ × Option ℚ)) :=
  stock_list.map (fun symbol => (symbol, fetchOne oracle (attemptsFor symbol) (none, none)))

/-- The first attempt, in order, whose lookup returns both indicator values;
used to state what `fetchOne` stops at. -/
def firstBoth (oracle : String → String → FetchResult) :
    List (String × String) → Option (ℚ × ℚ)
  | [] => none
  | (v, e) :: rest =>
    match oracle v e with
    | .ok (some rsi) (some sma) => some (rsi, sma)
    | _ => firstBoth oracle rest

/-- The values carried by the last non-raising attempt (starting from a
given state); used to state what `fetchOne` returns when no attempt has
both values. -/
def lastOk (oracle : String → String → FetchResult)
    (attempts : List (String × String)) (st : Option ℚ × Option ℚ) :
    Option ℚ × Option ℚ :=
  attempts.foldl (fun st att =>
    match oracle att.1 att.2 with
    | .ok rsi sma => (rsi, sma)
    | .err _ => st) st

/-! ## `data_fetch.fetch_dynamic_data` (lines 109-167) -/

/-- A `dynamic_results[symbol]` entry: the four scraped text fields. -/
structure DynEntry where
  price : String
  premarket_price : String
  premarket_change : String
  premarket_change_percent : String
deriving DecidableEq, Repr

/-- The CSS selectors queried per symbol (lines 144-146).  Note that no
selector is ever queried for `premarket_change`. -/
def selPrice : String := "span.price-qWcO4bp9"

def selPremarketPrice : String := "span.price-d1N3lNBX"

def selPremarketChangePercent : String := "span.changePercent-d1N3lNBX"

/-- The record built for one symbol (lines 147-152): `page` maps a CSS
selector to the text of the matching element, `none` when
`query_selector` finds no element.  `premarket_change` is the hard-coded
literal `"N/A"`. -/
def scrapeRecord (page : String → Option String) : DynEntry :=
  { price := match page selPrice with | some t => pyStrip t | none => "N/A"
    premarket_price := match page selPremarketPrice with | some t => pyStrip t | none => "N/A"
    premarket_change := "N/A"
    premarket_change_percent :=
      match page selPremarketChangePercent with | some t => pyStrip t | none => "N/A" }

/-- `fetch_dynamic_data(stock_list, cookies, wait_time)`: `page sym` is the
DOM visible after typing `sym` into the chart; `elapsed i` the wall-clock
seconds measured for the `i`-th symbol; `overall` the run's wall-clock
total.  Returns `(dynamic_results, overall_time, avg_time_per_stock)`; the
average is guarded on list emptiness exactly as in the source
(`total_fetch_time / len(stock_list) if stock_list else 0`, line 164).
Cookies and the pacing delay configure the browser session only and do not
enter the result. -/
def fetch_dynamic_data (stock_list : List String)
    (page : String → String → Option String) (elapsed : ℕ → ℚ) (overall : ℚ) :
    List (String × DynEntry) × ℚ × ℚ :=
  let results := stock_list.map (fun sym => (sym, scrapeRecord (page sym)))
  let total := ((List.range stock_list.length).map elapsed).sum
  let avg := if stock_list.isEmpty then 0 else total / (stock_list.length : ℚ)
  (results, overall, avg)

/-! ## Record merging: `data_fetch.fetch_all_stocks` (lines 173-209) and
`startt.run_dynamic_analysis` (lines 91-115)

Both sites run the identical per-symbol merging loop (the same field
lookups, the same `position` computation with the same `try/except`), so it
is embedded once. -/

/-- The `position` computation (data_fetch.py lines 185-192 =
startt.py lines 97-104):
```
position = "N/A"
try:
    if price != "N/A" and sma:
        price_val = float(price.replace(",", ""))
        sma_val = float(str(sma).replace(",", ""))
        position = "Above SMA" if price_val > sma_val else "Below SMA"
except Exception:
    pass
```
`sma` is numeric or `None` (it comes from the indicator fetch, possibly
via JSON), so `if sma:` is Python truthiness: present AND nonzero; and
`float(str(sma))` round-trips, so only the price parse can raise. -/
def computePosition (price : String) (sma : Option ℚ) : String :=
  match sma with
  | some s =>
    if price ≠ "N/A" ∧ s ≠ 0 then
      match parseFloat (stripCommas price) with
      | some price_val => if price_val > s then "Above SMA" else "Below SMA"
      | none => "N/A"
    else "N/A"
  | none => "N/A"

/-- A `static_results[symbol]` entry (`{"rsi": ..., "sma": ...}`). -/
structure StaticEntry where
  rsi : Option ℚ := none
  sma : Option ℚ := none
deriving DecidableEq, Repr

/-- The merged record built for one symbol: missing mapping entries behave
as `{}` (every `.get` falls back to its default). -/
def mkMergedRecord (symbol : String) (sdata : Option StaticEntry)
    (ddata : Option DynEntry) : Stock :=
  let rsi := sdata.bind StaticEntry.rsi
  let sma := sdata.bind StaticEntry.sma
  let price := match ddata with | some d => d.price | none => "N/A"
  { symbol := some symbol
    hasError := false
    rsi := rsi
    sma := sma
    position := some (computePosition price sma)
    price := some price
    premarket_price := some (match ddata with | some d => d.premarket_price | none => "N/A")
    premarket_change := some (match ddata with | some d => d.premarket_change | none => "N/A")
    premarket_change_percent :=
      some (.str (match ddata with | some d => d.premarket_change_percent | none => "N/A")) }

/-- The merging loop shared by `fetch_all_stocks` and
`run_dynamic_analysis`: one merged record per input symbol, in order.
`run_dynamic_analysis` writes exactly this list to CSV/JSON and feeds it to
`filter_opportunities` (it appends no sentinel). -/
def mergeRecords (stock_list : List String) (static_results : String → Option StaticEntry)
    (dynamic_data : String → Option DynEntry) : List Stock :=
  stock_list.map (fun symbol => mkMergedRecord symbol (static_results symbol) (dynamic_data symbol))

/-- The telemetry sentinel appended by `fetch_all_stocks` (lines 204-208);
the two timing strings are the already-formatted `f"{...:.2f}"` values. -/
def sentinelRecord (dynTotal dynAvg : String) : Stock :=
  { symbol := some marker
    dynamic_scrape_total_seconds := some dynTotal
    dynamic_scrape_avg_seconds := some dynAvg }

/-- `fetch_all_stocks(stock_list, cookies, wait_time)` (lines 173-209): the
merged records followed by the sentinel.  The static and dynamic fetch
results are supplied as the mappings the two fetchers produce. -/
def fetch_all_stocks (stock_list : List String)
    (static_results : String → Option StaticEntry)
    (dynamic_data : String → Option DynEntry) (dynTotal dynAvg : String) : List Stock :=
  mergeRecords stock_list static_results dynamic_data ++ [sentinelRecord dynTotal dynAvg]

/-- Number of sentinel records (records whose symbol is the reserved
marker) in a record collection. -/
def countSentinel (l : List Stock) : ℕ :=
  l.countP (fun s => s.symbol = some marker)

/-! ## Concrete inputs used in witnesses and counterexamples -/

/-- A config dictionary without the three threshold keys: every lookup
falls back to its default (70 / 30 / 2.0). -/
def cfgDefault : Config := {}

/-- Overlapping thresholds (all read from the config, none defaulted):
`RSI_LONG_MAX = 0 < RSI_SHORT_MIN = 100` and a zero minimum premarket
change. -/
def cfgOverlap : Config :=
  { RSI_LONG_MAX := some 0, RSI_SHORT_MIN := some 100,
    MIN_PREMARKET_CHANGE_PERCENT := some 0 }

/-- An ordinary record parsed from the daily JSON: price `"150.00"`,
premarket change `"3.00"`. -/
def stockAAPL : Stock :=
  { symbol := some "AAPL", price := some "150.00", premarket_change := some "3.00" }

/-- A record carrying an `"error"` key. -/
def errRecord : Stock :=
  { symbol := some "XYZ", hasError := true, price := some "5.0" }

/-- A sentinel-symbol record that nevertheless carries classifiable
indicator fields. -/
def sentinelClassified : Stock :=
  { symbol := some marker, rsi := some 25, premarket_change_percent := some (.num 5) }

/-- A long candidate under the default thresholds. -/
def stockLong : Stock :=
  { symbol := some "LNG", rsi := some 25, premarket_change_percent := some (.num 5) }

/-- A record satisfying both classification rules under `cfgOverlap`. -/
def stockBoth : Stock :=
  { symbol := some "BOTH", rsi := some 50, premarket_change_percent := some (.num 0) }

/-- Long candidates whose normalized percents are numbers. -/
def stockA : Stock :=
  { symbol := some "A", rsi := some 25, premarket_change_percent := some (.num 3) }

def stockB : Stock :=
  { symbol := some "B", rsi := some 25, premarket_change_percent := some (.num 7) }

/-- Long candidates whose percent fields are numeric *strings* (as produced
by the merger, not the normalizer). -/
def stockNine : Stock :=
  { symbol := some "NINE", rsi := some 25, premarket_change_percent := some (.str "9") }

def stockTen : Stock :=
  { symbol := some "TEN", rsi := some 25, premarket_change_percent := some (.str "10") }

/-- A record whose percent field is the literal `"N/A"`. -/
def naRecord : Stock := { premarket_change_percent := some (.str "N/A") }

/-- Empty fetch-result mappings. -/
def noStatic : String → Option StaticEntry := fun _ => none

def noDyn : String → Option DynEntry := fun _ => none

/-- Static results carrying a zero moving average for symbol `"A"`. -/
def stZeroSma : String → Option StaticEntry :=
  fun s => if s = "A" then some { rsi := none, sma := some 0 } else none

/-- Dynamic results carrying the scraped price `"5"` for symbol `"A"`. -/
def dyPriceFive : String → Option DynEntry :=
  fun s => if s = "A" then some ⟨"5", "N/A", "N/A", "N/A"⟩ else none

/-- Static results with the moving average `3` for symbol `"B"`. -/
def stSmaThree : String → Option StaticEntry :=
  fun s => if s = "B" then some { rsi := none, sma := some 3 } else none

/-- Dynamic results with the scraped price `"5"` for symbol `"B"`. -/
def dyPriceFiveB : String → Option DynEntry :=
  fun s => if s = "B" then some ⟨"5", "N/A", "N/A", "N/A"⟩ else none

/-- The merged record for symbol `"B"` above. -/
def recB : Stock := mkMergedRecord "B" (stSmaThree "B") (dyPriceFiveB "B")

/-- An analytics oracle whose only non-raising candidate returns the
oscillator value but no moving average. -/
def oracleHalf : String → String → FetchResult :=
  fun v e => if v = "A" ∧ e = "NASDAQ" then .ok (some 5) none else .err "boom"

/-- An analytics oracle raising "not found" on NASDAQ and returning both
values on NYSE. -/
def oracleBoth : String → String → FetchResult :=
  fun _ e =>
    if e = "NYSE" then .ok (some 40) (some 40) else .err "Exchange or symbol not found"

/-- A page on which every selector matches an element with text `" 3.00 "`. -/
def pageFull : String → String → Option String := fun _ _ => some " 3.00 "

/-- A page on which only the live-price element exists. -/
def pagePartial : String → String → Option String :=
  fun _ sel => if sel = selPrice then some " 123.45 " else none
theorem lexLt_trans : ∀ {a b c : List Char},
    lexLt a b = true → lexLt b c = true → lexLt a c = true
  | [], [], _, h, _ => by simp [lexLt] at h
  | [], _ :: _, [], _, h => by simp [lexLt] at h
  | [], _ :: _, _ :: _, _, _ => by simp [lexLt]
  | _ :: _, [], _, h, _ => by simp [lexLt] at h
  | _ :: _, _ :: _, [], _, h => by simp [lexLt] at h
  | a :: as, b :: bs, c :: cs, h1, h2 => by
    simp only [lexLt, Bool.or_eq_true, Bool.and_eq_true, decide_eq_true_eq] at h1 h2 ⊢
    rcases h1 with h1 | ⟨rfl, h1⟩
    · rcases h2 with h2 | ⟨rfl, _⟩
      · exact Or.inl (lt_trans h1 h2)
      · exact Or.inl h1
    · rcases h2 with h2 | ⟨rfl, h2⟩
      · exact Or.inl h2
      · exact Or.inr ⟨rfl, lexLt_trans h1 h2⟩

theorem lexLt_trichotomy : ∀ a b : List Char,
    lexLt a b = true ∨ a = b ∨ lexLt b a = true
  | [], [] => Or.inr (Or.inl rfl)
  | [], _ :: _ => Or.inl (by simp [lexLt])
  | _ :: _, [] => Or.inr (Or.inr (by simp [lexLt]))
  | a :: as, b :: bs => by
    rcases lt_trichotomy a b with h | rfl | h
    · exact Or.inl (by simp [lexLt, h])
    · rcases lexLt_trichotomy as bs with h | rfl | h
      · exact Or.inl (by simp [lexLt, h])
      · exact Or.inr (Or.inl rfl)
      · exact Or.inr (Or.inr (by simp [lexLt, h]))
    · exact Or.inr (Or.inr (by simp [lexLt, h]))

theorem lexLt_irrefl : ∀ a : List Char, lexLt a a = false
  | [] => rfl
  | a :: as => by simp [lexLt, lexLt_irrefl as]

theorem pyValLt_trans {a b c : PyVal} (h1 : pyValLt a b = true)
    (h2 : pyValLt b c = true) : pyValLt a c = true := by
  cases a <;> cases b <;> cases c <;>
      simp only [pyValLt, decide_eq_true_eq] at h1 h2 ⊢ <;>
    first
      | exact lt_trans h1 h2
      | exact lexLt_trans h1 h2
      | exact (Bool.false_ne_true h1).elim
      | exact (Bool.false_ne_true h2).elim

theorem pyValLt_trichotomy (a b : PyVal) :
    pyValLt a b = true ∨ a = b ∨ pyValLt b a = true := by
  cases a with
  | num qa =>
    cases b with
    | num qb =>
      rcases lt_trichotomy qa qb with h | rfl | h
      · exact Or.inl (by simp [pyValLt, h])
      · exact Or.inr (Or.inl rfl)
      · exact Or.inr (Or.inr (by simp [pyValLt, h]))
    | str _ => exact Or.inl (by simp [pyValLt])
  | str sa =>
    cases b with
    | num _ => exact Or.inr (Or.inr (by simp [pyValLt]))
    | str sb =>
      rcases lexLt_trichotomy sa.toList sb.toList with h | h | h
      · exact Or.inl (by simpa [pyValLt, String.toList] using h)
      · exact Or.inr (Or.inl (congrArg PyVal.str (String.ext h)))
      · exact Or.inr (Or.inr (by simpa [pyValLt, String.toList] using h))

theorem pyValLt_irrefl (a : PyVal) : pyValLt a a = false := by
  cases a with
  | num q => exact decide_eq_false (lt_irrefl q)
  | str s => exact lexLt_irrefl s.toList

theorem pyValLE_total (a b : PyVal) : pyValLE a b = true ∨ pyValLE b a = true := by
  rcases Bool.eq_false_or_eq_true (pyValLt b a) with h | h
  · rcases Bool.eq_false_or_eq_true (pyValLt a b) with h2 | h2
    · exfalso
      have := pyValLt_trans h h2
      rw [pyValLt_irrefl] at this
      exact Bool.false_ne_true this
    · exact Or.inr (by simp [pyValLE, h2])
  · exact Or.inl (by simp [pyValLE, h])

theorem pyValLE_trans {a b c : PyVal} (h1 : pyValLE a b = true)
    (h2 : pyValLE b c = true) : pyValLE a c = true := by
  simp only [pyValLE, Bool.not_eq_true'] at h1 h2 ⊢
  rcases Bool.eq_false_or_eq_true (pyValLt c a) with h | h
  · exfalso
    rcases pyValLt_trichotomy c b with hcb | rfl | hbc
    · simp [hcb] at h2
    · simp [h] at h1
    · have := pyValLt_trans hbc h
      simp [this] at h1
  · exact h

/-! ## Characterization of the classification loop -/

theorem rankStep_eq (lm sm mp : ℚ) (acc : List Stock × List Stock) (s : Stock) :
    rankStep lm sm mp acc s =
      (acc.1 ++ (if longCond sm mp s then [s] else []),
       acc.2 ++ (if shortCond lm mp s then [s] else [])) := by
  unfold rankStep longCond shortCond
  by_cases h1 : s.symbol = some marker
  · simp [h1]
  · by_cases h2 : s.hasError
    · simp [h1, h2]
    · cases hr : s.rsi with
      | none => simp [h1, h2, hr]
      | some rsi =>
        cases hp : s.premarket_change_percent with
        | none => simp [h1, h2, hr, hp]
        | some pm =>
          by_cases h3 : pm = .str "N/A"
          · simp [h1, h2, hr, hp, h3]
          · cases hq : pyFloat pm with
            | none => simp [h1, h2, hr, hp, h3, hq]
            | some q =>
              by_cases h4 : rsi < sm ∧ q ≥ mp <;> by_cases h5 : rsi > lm ∧ q ≤ -mp <;>
                simp [h1, h2, hr, hp, h3, hq, h4, h5]

theorem foldl_rankStep (lm sm mp : ℚ) (data : List Stock) (acc : List Stock × List Stock) :
    data.foldl (rankStep lm sm mp) acc =
      (acc.1 ++ data.filter (longCond sm mp), acc.2 ++ data.filter (shortCond lm mp)) := by
  induction data generalizing acc with
  | nil => simp
  | cons s t ih =>
    rw [List.foldl_cons, ih, rankStep_eq]
    by_cases hl : longCond sm mp s <;> by_cases hs : shortCond lm mp s <;>
      simp [hl, hs, List.filter_cons]

/-- Membership in the returned long list is membership in the input plus
the long-candidate condition. -/
theorem mem_long_iff (data : List Stock) (config : Config) (x : Stock) :
    x ∈ (filter_opportunities data config).1 ↔
      x ∈ data ∧
        longCond (config.RSI_SHORT_MIN.getD 30)
          (config.MIN_PREMARKET_CHANGE_PERCENT.getD 2) x = true := by
  simp [filter_opportunities, List.mem_insertionSort, foldl_rankStep, List.mem_filter]

/-- Membership in the returned short list, dually. -/
theorem mem_short_iff (data : List Stock) (config : Config) (x : Stock) :
    x ∈ (filter_opportunities data config).2 ↔
      x ∈ data ∧
        shortCond (config.RSI_LONG_MAX.getD 70)
          (config.MIN_PREMARKET_CHANGE_PERCENT.getD 2) x = true := by
  simp [filter_opportunities, List.mem_insertionSort, foldl_rankStep, List.mem_filter]

/-! ## Claims -/

/-- **C1.** For every record processed by the premarket normalizer other
than the sentinel and errored records: after stripping thousands
separators, if price or premarket_change is literally "N/A"
(case-insensitive) the record is kept with premarket_change_percent set to
"N/A"; if both parse as numeric and price is nonzero the record is kept
with premarket_change_percent = change / price * 100; if both parse and
price is zero the record is kept with "N/A"; and if either fails numeric
parsing the record is dropped from the output. -/
theorem premarket_normalizer_cases (data : List Stock) (stock : Stock)
    (hmem : stock ∈ data) (hsym : stock.symbol ≠ some marker)
    (herr : stock.hasError = false) :
    ((pyUpper (stripCommas (stock.price.getD "N/A")) = "N/A" ∨
        pyUpper (stripCommas (stock.premarket_change.getD "N/A")) = "N/A") →
      { stock with premarket_change_percent := some (.str "N/A") } ∈
        filter_premarket_data data)
    ∧ (∀ p c : ℚ,
        ¬ (pyUpper (stripCommas (stock.price.getD "N/A")) = "N/A" ∨
           pyUpper (stripCommas (stock.premarket_change.getD "N/A")) = "N/A") →
        parseFloat (stripCommas (stock.price.getD "N/A")) = some p →
        parseFloat (stripCommas (stock.premarket_change.getD "N/A")) = some c →
        (p ≠ 0 →
          { stock with premarket_change_percent := some (.num (c / p * 100)) } ∈
            filter_premarket_data data)
        ∧ (p = 0 →
          { stock with premarket_change_percent := some (.str "N/A") } ∈
            filter_premarket_data data))
    ∧ (¬ (pyUpper (stripCommas (stock.price.getD "N/A")) = "N/A" ∨
          pyUpper (stripCommas (stock.premarket_change.getD "N/A")) = "N/A") →
        (parseFloat (stripCommas (stock.price.getD "N/A")) = none ∨
         parseFloat (stripCommas (stock.premarket_change.getD "N/A")) = none) →
        premarketStep stock = none) := by
  refine ⟨fun hna => ?_, fun p c hna hp hc => ⟨fun hpz => ?_, fun hpz => ?_⟩,
    fun hna hnone => ?_⟩
  · exact List.mem_filterMap.mpr ⟨stock, hmem, by simp [premarketStep, hsym, herr, hna]⟩
  · exact List.mem_filterMap.mpr
      ⟨stock, hmem, by simp [premarketStep, hsym, herr, hna, hp, hc, hpz]⟩
  · exact List.mem_filterMap.mpr
      ⟨stock, hmem, by simp [premarketStep, hsym, herr, hna, hp, hc, hpz]⟩
  · rcases hnone with h | h
    · cases h2 : parseFloat (stripCommas (stock.premarket_change.getD "N/A")) <;>
        simp [premarketStep, hsym, herr, hna, h, h2]
    · cases h2 : parseFloat (stripCommas (stock.price.getD "N/A")) <;>
        simp [premarketStep, hsym, herr, hna, h, h2]

/-- Witness for C1 at the record `stockAAPL` (price "150.00",
premarket_change "3.00"): kept with percent 3 / 150 * 100 = 2. -/
theorem premarket_normalizer_cases_witness :
    stockAAPL.symbol ≠ some marker ∧ stockAAPL.hasError = false ∧
    ¬ (pyUpper (stripCommas (stockAAPL.price.getD "N/A")) = "N/A" ∨
       pyUpper (stripCommas (stockAAPL.premarket_change.getD "N/A")) = "N/A") ∧
    parseFloat (stripCommas (stockAAPL.price.getD "N/A")) = some 150 ∧
    parseFloat (stripCommas (stockAAPL.premarket_change.getD "N/A")) = some 3 ∧
    (150 : ℚ) ≠ 0 ∧
    { stockAAPL with premarket_change_percent := some (.num ((3 : ℚ) / 150 * 100)) } ∈
      filter_premarket_data [stockAAPL] ∧
    (3 : ℚ) / 150 * 100 = 2 :=
  ⟨by decide, rfl, by decide, by decide, by decide, by norm_num,
    ((premarket_normalizer_cases [stockAAPL] stockAAPL (by simp) (by decide) rfl).2.1
      150 3 (by decide) (by decide) (by decide)).1 (by norm_num),
    by norm_num⟩

/-- **C5 counterexample.** The claim says a record flagged as errored is
included in the normalizer's output unchanged; in fact the loop `continue`s
without appending it, so it is dropped: on the one-record input
`[errRecord]` the output is empty. -/
theorem premarket_passthrough_cex :
    errRecord.hasError = true ∧ filter_premarket_data [errRecord] = [] :=
  ⟨rfl, by decide⟩

/-- **C5 (amended).** The sentinel record is passed through unchanged, but
a non-sentinel record flagged as errored is dropped from the output
entirely. -/
theorem premarket_passthrough (data : List Stock) (stock : Stock) (hmem : stock ∈ data) :
    (stock.symbol = some marker → stock ∈ filter_premarket_data data)
    ∧ (stock.symbol ≠ some marker → stock.hasError = true → premarketStep stock = none) := by
  constructor
  · intro h
    exact List.mem_filterMap.mpr ⟨stock, hmem, by simp [premarketStep, h]⟩
  · intro h1 h2
    simp [premarketStep, h1, h2]

/-- Witness for C5: the sentinel passes through; `errRecord` is dropped. -/
theorem premarket_passthrough_witness :
    (sentinelRecord "9.41" "1.18").symbol = some marker ∧
    sentinelRecord "9.41" "1.18" ∈ filter_premarket_data [sentinelRecord "9.41" "1.18"] ∧
    errRecord.symbol ≠ some marker ∧ errRecord.hasError = true ∧
    premarketStep errRecord = none :=
  ⟨rfl,
    (premarket_passthrough [sentinelRecord "9.41" "1.18"] (sentinelRecord "9.41" "1.18")
      (by simp)).1 rfl,
    by decide, rfl,
    (premarket_passthrough [errRecord] errRecord (by simp)).2 (by decide) rfl⟩

/-- **C2 counterexample.** The claim quantifies over *every* input record
with present, numeric fields; but a record whose symbol is the reserved
sentinel marker satisfies the long conditions under the default thresholds
(oscillator 25 < 30, percent 5 ≥ 2) and is still placed in neither set —
the loop skips it before reading any field. -/
theorem ranker_classification_cex :
    sentinelClassified.rsi = some 25 ∧
    sentinelClassified.premarket_change_percent = some (.num 5) ∧
    pyFloat (.num 5) = some 5 ∧
    (25 : ℚ) < 30 ∧ (5 : ℚ) ≥ 2 ∧
    sentinelClassified ∉ (filter_opportunities [sentinelClassified] cfgDefault).1 := by
  decide

/-- **C2 (amended).** For every *non-sentinel, non-errored* input record
with a present oscillator_value and a present, non-"N/A", numeric
premarket_change_percent, the ranker places it in the long set iff
oscillator_value < rsi_short_min and percent ≥ min_premarket_change_percent,
and in the short set iff oscillator_value > rsi_long_max and percent ≤
-min_premarket_change_percent; a record with missing oscillator_value or
missing/"N/A"/non-numeric percent is in neither set. -/
theorem ranker_classification (data : List Stock) (config : Config) (stock : Stock)
    (hmem : stock ∈ data) (hsym : stock.symbol ≠ some marker)
    (herr : stock.hasError = false) :
    (∀ (r : ℚ) (pv : PyVal) (q : ℚ),
        stock.rsi = some r → stock.premarket_change_percent = some pv →
        pv ≠ .str "N/A" → pyFloat pv = some q →
        (stock ∈ (filter_opportunities data config).1 ↔
          r < config.RSI_SHORT_MIN.getD 30 ∧
            q ≥ config.MIN_PREMARKET_CHANGE_PERCENT.getD 2)
        ∧ (stock ∈ (filter_opportunities data config).2 ↔
          r > config.RSI_LONG_MAX.getD 70 ∧
            q ≤ -(config.MIN_PREMARKET_CHANGE_PERCENT.getD 2)))
    ∧ ((stock.rsi = none ∨ stock.premarket_change_percent = none ∨
        stock.premarket_change_percent = some (.str "N/A") ∨
        (∀ pv : PyVal, stock.premarket_change_percent = some pv → pyFloat pv = none)) →
        stock ∉ (filter_opportunities data config).1 ∧
        stock ∉ (filter_opportunities data config).2) := by
  constructor
  · intro r pv q hr hp hne hq
    rw [mem_long_iff, mem_short_iff]
    simp [longCond, shortCond, hmem, hsym, herr, hr, hp, hne, hq]
  · intro h
    have key : ∀ sm mp lm : ℚ, longCond sm mp stock = false ∧ shortCond lm mp stock = false := by
      intro sm mp lm
      cases hrsi : stock.rsi with
      | none => constructor <;> simp [longCond, shortCond, hrsi]
      | some r =>
        cases hpc : stock.premarket_change_percent with
        | none => constructor <;> simp [longCond, shortCond, hrsi, hpc]
        | some pv =>
          rcases h with h | h | h | h
          · rw [hrsi] at h; exact absurd h (by simp)
          · rw [hpc] at h; exact absurd h (by simp)
          · rw [hpc] at h
            obtain rfl := Option.some.inj h
            constructor <;> simp [longCond, shortCond, hrsi, hpc]
          · have hq := h pv hpc
            constructor <;> simp [longCond, shortCond, hrsi, hpc, hq]
    constructor
    · intro hx
      rw [mem_long_iff] at hx
      exact absurd hx.2 (by simp [(key _ _ 0).1])
    · intro hx
      rw [mem_short_iff] at hx
      exact absurd hx.2 (by simp [(key 0 _ _).2])

/-- Witness for C2 at `stockLong` (oscillator 25, percent 5, default
thresholds): classified long. -/
theorem ranker_classification_witness :
    stockLong ∈ ([stockLong] : List Stock) ∧ stockLong.symbol ≠ some marker ∧
    stockLong.hasError = false ∧ stockLong.rsi = some 25 ∧
    stockLong.premarket_change_percent = some (.num 5) ∧
    ((.num 5 : PyVal) ≠ .str "N/A") ∧ pyFloat (.num 5) = some 5 ∧
    stockLong ∈ (filter_opportunities [stockLong] cfgDefault).1 :=
  ⟨by simp, by decide, rfl, rfl, rfl, by decide, rfl,
    (((ranker_classification [stockLong] cfgDefault stockLong (by simp) (by decide) rfl).1
        25 (.num 5) 5 rfl rfl (by decide) rfl).1).mpr (by decide)⟩

/-- **C7 counterexample.** The claim asserts disjointness for *every*
thresholds configuration; under `cfgOverlap` (rsi_long_max = 0 <
rsi_short_min = 100, min percent = 0) the record `stockBoth`
(oscillator 50, percent 0) is a member of both returned sets. -/
theorem long_short_disjoint_cex :
    stockBoth ∈ (filter_opportunities [stockBoth] cfgOverlap).1 ∧
    stockBoth ∈ (filter_opportunities [stockBoth] cfgOverlap).2 := by
  decide

/-- **C7 (amended).** The long and short sets are disjoint provided the
thresholds are sane: the minimum premarket change percent is positive, or
rsi_short_min ≤ rsi_long_max (both hold for the defaults 30 ≤ 70, 2 > 0). -/
theorem long_short_disjoint (data : List Stock) (config : Config)
    (hsane : 0 < config.MIN_PREMARKET_CHANGE_PERCENT.getD 2 ∨
      config.RSI_SHORT_MIN.getD 30 ≤ config.RSI_LONG_MAX.getD 70)
    (x : Stock) (hl : x ∈ (filter_opportunities data config).1) :
    x ∉ (filter_opportunities data config).2 := by
  intro hs
  rw [mem_long_iff] at hl
  rw [mem_short_iff] at hs
  obtain ⟨-, hl⟩ := hl
  obtain ⟨-, hs⟩ := hs
  cases hrsi : x.rsi with
  | none => simp [longCond, hrsi] at hl
  | some r =>
    cases hpc : x.premarket_change_percent with
    | none => simp [longCond, hrsi, hpc] at hl
    | some pv =>
      cases hq : pyFloat pv with
      | none => simp [longCond, hrsi, hpc, hq] at hl
      | some q =>
        simp [longCond, hrsi, hpc, hq] at hl
        simp [shortCond, hrsi, hpc, hq] at hs
        rcases hsane with h | h
        · linarith [hl.2.2.2, hs.2.2.2]
        · linarith [hl.2.2.1, hs.2.2.1]

/-- Witness for C7 at the default thresholds: `stockLong` is in the long
set and not in the short set. -/
theorem long_short_disjoint_witness :
    (0 < cfgDefault.MIN_PREMARKET_CHANGE_PERCENT.getD 2 ∨
      cfgDefault.RSI_SHORT_MIN.getD 30 ≤ cfgDefault.RSI_LONG_MAX.getD 70) ∧
    stockLong ∈ (filter_opportunities [stockLong] cfgDefault).1 ∧
    stockLong ∉ (filter_opportunities [stockLong] cfgDefault).2 :=
  ⟨Or.inl (by decide), by decide,
    long_short_disjoint [stockLong] cfgDefault (Or.inl (by decide)) stockLong (by decide)⟩

/-- **C4 counterexample.** The claim asserts the sentinel is present
exactly once in the output collection of *every* dynamic run.  The dynamic
run `startt.run_dynamic_analysis` (the path all entry points invoke)
persists exactly the merged records, appending no sentinel: on the input
list `["AAPL"]` its record collection contains zero sentinel records. -/
theorem sentinel_presence_cex :
    countSentinel (mergeRecords ["AAPL"] noStatic noDyn) = 0 := by
  decide

/-- **C4 (amended).** When the reserved marker is not itself an input
symbol, the *combined fetch* `fetch_all_stocks` emits the sentinel exactly
once, while the `run_dynamic_analysis` merge emits none; and the ranker
places a sentinel-symbol record in neither set regardless of its other
fields. -/
theorem sentinel_presence (stock_list : List String)
    (static_results : String → Option StaticEntry)
    (dynamic_data : String → Option DynEntry) (dynTotal dynAvg : String)
    (hm : marker ∉ stock_list) :
    countSentinel (fetch_all_stocks stock_list static_results dynamic_data dynTotal dynAvg) = 1
    ∧ countSentinel (mergeRecords stock_list static_results dynamic_data) = 0
    ∧ (∀ (s : Stock) (data : List Stock) (config : Config), s.symbol = some marker →
        s ∉ (filter_opportunities data config).1 ∧ s ∉ (filter_opportunities data config).2) := by
  have h0 : countSentinel (mergeRecords stock_list static_results dynamic_data) = 0 := by
    rw [countSentinel, List.countP_eq_zero]
    intro a ha
    obtain ⟨sym, hsym, rfl⟩ := List.mem_map.mp ha
    simp only [mkMergedRecord, decide_eq_true_eq, Option.some.injEq]
    intro h
    exact hm (h ▸ hsym)
  refine ⟨?_, h0, ?_⟩
  · rw [fetch_all_stocks, countSentinel, List.countP_append]
    rw [countSentinel] at h0
    rw [h0]
    simp [sentinelRecord]
  · intro s data config hs
    constructor
    · intro hx
      rw [mem_long_iff] at hx
      exact absurd hx.2 (by simp [longCond, hs])
    · intro hx
      rw [mem_short_iff] at hx
      exact absurd hx.2 (by simp [shortCond, hs])

/-- Witness for C4: one ordinary symbol; the combined fetch output carries
the sentinel exactly once and the ranker excludes a sentinel record. -/
theorem sentinel_presence_witness :
    marker ∉ (["AAPL"] : List String) ∧
    countSentinel (fetch_all_stocks ["AAPL"] noStatic noDyn "9.41" "1.18") = 1 ∧
    (sentinelClassified.symbol = some marker ∧
      sentinelClassified ∉ (filter_opportunities [sentinelClassified] cfgDefault).2) :=
  ⟨by decide,
    (sentinel_presence ["AAPL"] noStatic noDyn "9.41" "1.18" (by decide)).1,
    rfl,
    ((sentinel_presence ["AAPL"] noStatic noDyn "9.41" "1.18" (by decide)).2.2
      sentinelClassified [sentinelClassified] cfgDefault rfl).2⟩

/-- **C3 counterexample.** The claim says that whenever price and
moving_average_value both parse as numeric, position is Above iff
price > ma (else Below).  For the merged record of symbol "A" the price
"5" parses to 5 and the moving average is the number 0, and 5 > 0 — yet
position is "N/A" (Unknown): the guard `if price != "N/A" and sma:` uses
Python truthiness, so a zero moving average is treated like a missing
one. -/
theorem merged_position_cex :
    (mergeRecords ["A"] stZeroSma dyPriceFive).map Stock.position = [some "N/A"] ∧
    (mergeRecords ["A"] stZeroSma dyPriceFive).map Stock.price = [some "5"] ∧
    (mergeRecords ["A"] stZeroSma dyPriceFive).map Stock.sma = [some 0] ∧
    parseFloat (stripCommas "5") = some 5 ∧ (5 : ℚ) > 0 := by
  decide

/-- **C3 (amended).** For every merged record: when the price parses as
numeric (after stripping thousands separators) and the moving average is
present and *nonzero*, position is Above iff price > ma and otherwise
Below; position is Unknown ("N/A") whenever the moving average is missing
or zero, or the price does not parse. -/
theorem merged_position (stock_list : List String)
    (static_results : String → Option StaticEntry)
    (dynamic_data : String → Option DynEntry) (rec : Stock)
    (hrec : rec ∈ mergeRecords stock_list static_results dynamic_data) :
    (∀ (p : String) (s pv : ℚ), rec.price = some p → rec.sma = some s → s ≠ 0 →
        parseFloat (stripCommas p) = some pv →
        (rec.position = some "Above SMA" ↔ pv > s) ∧
        (rec.position = some "Below SMA" ↔ ¬ pv > s))
    ∧ ((rec.sma = none ∨ rec.sma = some 0 ∨
        (∀ p : String, rec.price = some p → parseFloat (stripCommas p) = none)) →
        rec.position = some "N/A") := by
  obtain ⟨sym, hsym, rfl⟩ := List.mem_map.mp hrec
  constructor
  · intro p s pv hp hs hs0 hpv
    have hprice : (match dynamic_data sym with
        | some d => d.price | none => "N/A") = p := by
      simpa [mkMergedRecord] using hp
    have hsma : (static_results sym).bind StaticEntry.sma = some s := by
      simpa [mkMergedRecord] using hs
    have hpNA : p ≠ "N/A" := by
      intro h
      rw [h] at hpv
      rw [show parseFloat (stripCommas "N/A") = none from by decide] at hpv
      exact Option.noConfusion hpv
    have hpos : (mkMergedRecord sym (static_results sym) (dynamic_data sym)).position =
        some (computePosition p (some s)) := by
      simp [mkMergedRecord, hprice, hsma]
    rw [hpos, computePosition]
    rw [if_pos ⟨hpNA, hs0⟩, hpv]
    by_cases h : pv > s
    · simp [h]
    · simp [h]
  · intro h
    have hpos : ∀ pr sm, (match dynamic_data sym with
          | some d => d.price | none => "N/A") = pr →
        (static_results sym).bind StaticEntry.sma = sm →
        (mkMergedRecord sym (static_results sym) (dynamic_data sym)).position =
          some (computePosition pr sm) := by
      intro pr sm h1 h2
      simp [mkMergedRecord, h1, h2]
    rcases h with h | h | h
    · have hsma : (static_results sym).bind StaticEntry.sma = none := by
        simpa [mkMergedRecord] using h
      rw [hpos (match dynamic_data sym with | some d => d.price | none => "N/A")
        none rfl hsma, computePosition]
    · have hsma : (static_results sym).bind StaticEntry.sma = some 0 := by
        simpa [mkMergedRecord] using h
      rw [hpos (match dynamic_data sym with | some d => d.price | none => "N/A")
        (some 0) rfl hsma, computePosition]
      simp
    · have hparse := h (match dynamic_data sym with | some d => d.price | none => "N/A")
        (by simp [mkMergedRecord])
      cases hsm : (static_results sym).bind StaticEntry.sma with
      | none =>
        rw [hpos (match dynamic_data sym with | some d => d.price | none => "N/A")
          none rfl hsm, computePosition]
      | some s =>
        rw [hpos (match dynamic_data sym with | some d => d.price | none => "N/A")
          (some s) rfl hsm, computePosition]
        by_cases hc : (match dynamic_data sym with
            | some d => d.price | none => "N/A") ≠ "N/A" ∧ s ≠ 0
        · rw [if_pos hc, hparse]
        · rw [if_neg hc]

/-- Witness for C3 at the merged record of symbol "B" (price "5", moving
average 3): position "Above SMA". -/
theorem merged_position_witness :
    recB ∈ mergeRecords ["B"] stSmaThree dyPriceFiveB ∧
    recB.price = some "5" ∧ recB.sma = some 3 ∧ (3 : ℚ) ≠ 0 ∧
    parseFloat (stripCommas "5") = some 5 ∧ (5 : ℚ) > 3 ∧
    recB.position = some "Above SMA" :=
  ⟨by decide, by decide, by decide, by decide, by decide, by decide,
    ((merged_position ["B"] stSmaThree dyPriceFiveB recB (by decide)).1
      "5" 3 5 (by decide) (by decide) (by decide) (by decide)).1.mpr (by decide)⟩

/-! ## Characterization of the static-fetch attempt loop -/

/-- If some attempt returns both values, `fetchOne` stops at the first such
attempt and yields its values, from any starting state. -/
theorem fetchOne_eq_firstBoth (oracle : String → String → FetchResult) :
    ∀ (l : List (String × String)) (st : Option ℚ × Option ℚ) (r s : ℚ),
      firstBoth oracle l = some (r, s) → fetchOne oracle l st = (some r, some s)
  | [], _, _, _, h => by simp [firstBoth] at h
  | (v, e) :: rest, st, r, s, h => by
    rw [firstBoth] at h
    rw [fetchOne]
    cases ho : oracle v e with
    | ok rsi sma =>
      rw [ho] at h
      cases rsi with
      | none =>
        simp only at h
        simpa using fetchOne_eq_firstBoth oracle rest _ r s h
      | some r' =>
        cases sma with
        | none =>
          simp only at h
          simpa using fetchOne_eq_firstBoth oracle rest _ r s h
        | some s' =>
          simp only [Option.some.injEq, Prod.mk.injEq] at h
          simp [h.1, h.2]
    | err m =>
      rw [ho] at h
      simp only at h
      exact fetchOne_eq_firstBoth oracle rest st r s h

/-- If no attempt returns both values, `fetchOne` degenerates to "the
values of the last non-raising attempt" (the state threading of the
loop). -/
theorem fetchOne_eq_lastOk (oracle : String → String → FetchResult) :
    ∀ (l : List (String × String)) (st : Option ℚ × Option ℚ),
      firstBoth oracle l = none → fetchOne oracle l st = lastOk oracle l st
  | [], st, _ => rfl
  | (v, e) :: rest, st, h => by
    rw [firstBoth] at h
    rw [fetchOne, lastOk, List.foldl_cons]
    cases ho : oracle v e with
    | ok rsi sma =>
      rw [ho] at h
      cases rsi with
      | none =>
        simp only at h
        simpa [lastOk] using fetchOne_eq_lastOk oracle rest (none, sma) h
      | some r' =>
        cases sma with
        | none =>
          simp only at h
          simpa [lastOk] using fetchOne_eq_lastOk oracle rest (some r', none) h
        | some s' => simp at h
    | err m =>
      rw [ho] at h
      simp only at h
      simpa [lastOk] using fetchOne_eq_lastOk oracle rest st h

/-- **C8 counterexample.** For symbol "A" under `oracleHalf`, no attempt
returns both indicator values (the NASDAQ attempt returns only the
oscillator, the NYSE attempt raises); the claim then requires both entry
fields to be None, but the entry keeps the partial value `some 5` from the
NASDAQ attempt, since the loop body overwrites `rsi, sma` on every
non-raising attempt. -/
theorem static_fetch_entry_cex :
    firstBoth oracleHalf (attemptsFor "A") = none ∧
    fetch_static_data ["A"] oracleHalf = [("A", (some 5, none))] ∧
    (some (5 : ℚ), (none : Option ℚ)) ≠ ((none : Option ℚ), (none : Option ℚ)) := by
  decide

/-- **C8 (amended).** Every input symbol gets an entry in the result
mapping.  If some variant/exchange attempt returns both indicator values,
the entry equals the values of the first such attempt.  Otherwise the
entry holds the values of the last attempt that returned an analysis at
all — each field possibly None, and both None when every attempt raised;
this outcome is not an error. -/
theorem static_fetch_entry (stock_list : List String)
    (oracle : String → String → FetchResult) (symbol : String)
    (hmem : symbol ∈ stock_list) :
    ((symbol, fetchOne oracle (attemptsFor symbol) (none, none)) ∈
        fetch_static_data stock_list oracle)
    ∧ (∀ r s : ℚ, firstBoth oracle (attemptsFor symbol) = some (r, s) →
        fetchOne oracle (attemptsFor symbol) (none, none) = (some r, some s))
    ∧ (firstBoth oracle (attemptsFor symbol) = none →
        fetchOne oracle (attemptsFor symbol) (none, none) =
          lastOk oracle (attemptsFor symbol) (none, none)) := by
  refine ⟨?_, ?_, ?_⟩
  · exact List.mem_map.mpr ⟨symbol, hmem, rfl⟩
  · intro r s h
    exact fetchOne_eq_firstBoth oracle _ _ r s h
  · intro h
    exact fetchOne_eq_lastOk oracle _ _ h

/-- Witness for C8 under `oracleBoth`: the NASDAQ attempt raises, the NYSE
attempt returns both values, and the entry carries them. -/
theorem static_fetch_entry_witness :
    ("A" ∈ (["A"] : List String)) ∧
    firstBoth oracleBoth (attemptsFor "A") = some (40, 40) ∧
    ("A", (some (40 : ℚ), some (40 : ℚ))) ∈ fetch_static_data ["A"] oracleBoth := by
  have h1 := (static_fetch_entry ["A"] oracleBoth "A" (by simp)).1
  rw [(static_fetch_entry ["A"] oracleBoth "A" (by simp)).2.1 40 40 (by decide)] at h1
  exact ⟨by simp, by decide, h1⟩

/-- **C9 counterexample.** The claim says each of the four ScrapeRecord
fields equals the stripped text of its DOM element when present and "N/A"
exactly when the element is missing.  On `pageFull` every selector matches
an element with text " 3.00 " (no element is missing — `pageFull` returns
text for *any* selector), yet the scraped `premarket_change` is still
"N/A": the code never queries a DOM element for that field, it hard-codes
the literal. -/
theorem scrape_fields_cex :
    (scrapeRecord (pageFull "AAPL")).premarket_change = "N/A" ∧
    pageFull "AAPL" selPrice = some " 3.00 " ∧
    pageFull "AAPL" selPremarketChangePercent = some " 3.00 " ∧
    pyStrip " 3.00 " = "3.00" ∧ ("N/A" : String) ≠ "3.00" := by
  decide

/-- **C9 (amended).** Three of the four fields (price, premarket_price,
premarket_change_percent) equal the stripped text of their DOM element when
present and "N/A" when the element is missing, a missing element never
raising an error; `premarket_change` is unconditionally "N/A" — no DOM
element is consulted for it. -/
theorem scrape_fields (page : String → String → Option String) (sym : String) :
    (∀ t : String, page sym selPrice = some t →
        (scrapeRecord (page sym)).price = pyStrip t)
    ∧ (page sym selPrice = none → (scrapeRecord (page sym)).price = "N/A")
    ∧ (∀ t : String, page sym selPremarketPrice = some t →
        (scrapeRecord (page sym)).premarket_price = pyStrip t)
    ∧ (page sym selPremarketPrice = none →
        (scrapeRecord (page sym)).premarket_price = "N/A")
    ∧ (∀ t : String, page sym selPremarketChangePercent = some t →
        (scrapeRecord (page sym)).premarket_change_percent = pyStrip t)
    ∧ (page sym selPremarketChangePercent = none →
        (scrapeRecord (page sym)).premarket_change_percent = "N/A")
    ∧ (scrapeRecord (page sym)).premarket_change = "N/A" := by
  refine ⟨fun t h => ?_, fun h => ?_, fun t h => ?_, fun h => ?_, fun t h => ?_,
    fun h => ?_, rfl⟩ <;> simp [scrapeRecord, h]

/-- Witness for C9 on `pagePartial` (only the live-price element exists):
price is the stripped text, the premarket fields are "N/A". -/
theorem scrape_fields_witness :
    pagePartial "AAPL" selPrice = some " 123.45 " ∧
    (scrapeRecord (pagePartial "AAPL")).price = pyStrip " 123.45 " ∧
    pagePartial "AAPL" selPremarketPrice = none ∧
    (scrapeRecord (pagePartial "AAPL")).premarket_price = "N/A" ∧
    (scrapeRecord (pagePartial "AAPL")).premarket_change = "N/A" :=
  ⟨by decide,
    (scrape_fields pagePartial "AAPL").1 " 123.45 " (by decide),
    by decide,
    (scrape_fields pagePartial "AAPL").2.2.2.1 (by decide),
    (scrape_fields pagePartial "AAPL").2.2.2.2.2.2⟩

/-- **C10.** On the empty symbol list the dynamic scrape returns an empty
result mapping and an average_seconds_per_symbol of 0, for every page
oracle, timing oracle and overall elapsed time; the average computation is
guarded on list emptiness, so no division by zero occurs. -/
theorem dynamic_fetch_empty (page : String → String → Option String)
    (elapsed : ℕ → ℚ) (overall : ℚ) :
    fetch_dynamic_data [] page elapsed overall = ([], overall, 0) := rfl

/-- **C6 counterexample.** The claim says the long sequence is sorted by
premarket_change_percent in descending order for *every* input.  When the
candidate percents are numeric *strings* (the merger stores scraped text;
`float()` in the classification accepts "9" and "10"), the sort keys are
the raw strings and Python compares them lexicographically: the returned
long list keeps the 9-percent record before the 10-percent one, which is
not numerically descending. -/
theorem ranker_sorted_cex :
    (filter_opportunities [stockNine, stockTen] cfgDefault).1 = [stockNine, stockTen] ∧
    stockNine.premarket_change_percent = some (.str "9") ∧
    stockTen.premarket_change_percent = some (.str "10") ∧
    pyFloat (.str "9") = some 9 ∧ pyFloat (.str "10") = some 10 ∧
    ¬ ((9 : ℚ) ≥ 10) := by
  decide

/-- **C6 (amended).** The returned long sequence is sorted in descending
order and the short sequence in ascending order *with respect to the raw
sort keys*; in particular, whenever two records in either returned
sequence both carry numeric keys, they are numerically ordered
(descending for long, ascending for short).  The comparator does not fail
on a record whose premarket_change_percent is "N/A": its sort key is the
number 0. -/
theorem ranker_sorted (data : List Stock) (config : Config) :
    ((filter_opportunities data config).1.Pairwise
        (fun a b => ∀ qa qb : ℚ, sortKey a = .num qa → sortKey b = .num qb → qb ≤ qa))
    ∧ ((filter_opportunities data config).2.Pairwise
        (fun a b => ∀ qa qb : ℚ, sortKey a = .num qa → sortKey b = .num qb → qa ≤ qb))
    ∧ (∀ x : Stock, x.premarket_change_percent = some (.str "N/A") → sortKey x = .num 0) := by
  haveI : IsTotal Stock descR := ⟨fun a b => pyValLE_total (sortKey b) (sortKey a)⟩
  haveI : IsTrans Stock descR := ⟨fun a b c h1 h2 => pyValLE_trans h2 h1⟩
  haveI : IsTotal Stock ascR := ⟨fun a b => pyValLE_total (sortKey a) (sortKey b)⟩
  haveI : IsTrans Stock ascR := ⟨fun a b c h1 h2 => pyValLE_trans h1 h2⟩
  refine ⟨?_, ?_, ?_⟩
  · have hs : List.Sorted descR (filter_opportunities data config).1 :=
      List.sorted_insertionSort descR _
    refine hs.imp ?_
    intro a b h qa qb ha hb
    rw [descR, ha, hb] at h
    simp only [pyValLE, pyValLt, Bool.not_eq_true', decide_eq_false_iff_not] at h
    exact le_of_not_lt h
  · have hs : List.Sorted ascR (filter_opportunities data config).2 :=
      List.sorted_insertionSort ascR _
    refine hs.imp ?_
    intro a b h qa qb ha hb
    rw [ascR, ha, hb] at h
    simp only [pyValLE, pyValLt, Bool.not_eq_true', decide_eq_false_iff_not] at h
    exact le_of_not_lt h
  · intro x h
    simp [sortKey, h]

/-- Witness for C6: two numeric-percent long candidates come back in
descending order (7 before 3), and an "N/A" record's sort key is 0. -/
theorem ranker_sorted_witness :
    (filter_opportunities [stockA, stockB] cfgDefault).1 = [stockB, stockA] ∧
    sortKey stockB = .num 7 ∧ sortKey stockA = .num 3 ∧ (3 : ℚ) ≤ 7 ∧
    naRecord.premarket_change_percent = some (.str "N/A") ∧
    sortKey naRecord = .num 0 := by
  have h := (ranker_sorted [stockA, stockB] cfgDefault).1
  rw [show (filter_opportunities [stockA, stockB] cfgDefault).1 = [stockB, stockA] from
    by decide] at h
  exact ⟨by decide, by decide, by decide,
    (List.pairwise_cons.mp h).1 stockA (by simp) 7 3 (by decide) (by decide),
    rfl, (ranker_sorted [stockA, stockB] cfgDefault).2.2 naRecord rfl⟩
